import Mathlib

/-!
# TMSU: value-id lists, value collections, database path resolution and the mount command

A shallow embedding of three source files of TMSU

* `src/tmsu/entities/value.go` (`ValueIds`, `Values`),
* `src/main/config.go` (`databasePath`),
* `src/tmsu/cli/commands/mount.go` (`MountCommand`),

followed by theorems about them.

Conventions of the embedding.

* A Go `string` is a sequence of bytes: `GoString = List UInt8`.
* A Go `uint` id is a natural number; the code only compares ids, it never does
  arithmetic on them.
* A slice is the list of its elements. A method that writes through its slice receiver
  returns the receiver's final contents next to its result.
* A Go `error` is `Option GoString`: `none` is `nil`, `some m` is an error whose
  `Error()` text is `m`.
* Everything the code asks of the operating system is answered by a `World` record;
  everything it does to the outside is appended to a trace of `Event`s.
-/

namespace TMSU

/-! ## Strings -/

/-- A Go string: an immutable sequence of bytes. -/
abbrev GoString := List UInt8

/-- The bytes of an ASCII string literal of the source. -/
def lit (s : String) : GoString := s.toList.map (fun c => UInt8.ofNat c.toNat)

/-! ## `entities/value.go`: `ValueIds` -/

/-- Go: `type ValueId uint`. -/
abbrev ValueId := Nat

/-- Go: `type ValueIds []ValueId`. -/
abbrev ValueIds := List ValueId

/-- Go: `func (valueIds ValueIds) Len() int`. -/
def ValueIds.Len (valueIds : ValueIds) : Nat := valueIds.length

/-- Go: `func (valueIds ValueIds) Less(i, j int) bool`, `valueIds[i] < valueIds[j]`.
Indexing is total here (an index out of range reads `0`); the sort below only ever passes
indices that are in range. -/
def ValueIds.Less (valueIds : ValueIds) (i j : Nat) : Bool :=
  decide (valueIds.getD i 0 < valueIds.getD j 0)

/-- Go: `func (valueIds ValueIds) Swap(i, j int)`,
`valueIds[i], valueIds[j] = valueIds[j], valueIds[i]`: both right-hand sides are read
first, then both elements are written. Returns the receiver's new contents. -/
def ValueIds.Swap (valueIds : ValueIds) (i j : Nat) : ValueIds :=
  let vi := valueIds.getD i 0
  let vj := valueIds.getD j 0
  (valueIds.set i vj).set j vi

/-- The inner loop of the library's insertion sort with lower bound `a = 0`:
`for j := i; j > 0 && data.Less(j, j-1); j-- { data.Swap(j, j-1) }`. -/
def insertionInner (data : ValueIds) : Nat → ValueIds
  | 0 => data
  | j + 1 =>
    if ValueIds.Less data (j + 1) j then insertionInner (ValueIds.Swap data (j + 1) j) j
    else data

/-- The outer loop of the library's insertion sort, `for i := ...; i < b; i++`, with
`b = data.Len()`; `fuel` bounds the number of iterations still to run. -/
def insertionOuter (data : ValueIds) (i : Nat) : Nat → ValueIds
  | 0 => data
  | fuel + 1 =>
    if i < ValueIds.Len data then insertionOuter (insertionInner data i) (i + 1) fuel
    else data

/-- Go standard library: `sort.Sort(data)`, which reorders `data` in place using only
`Len`, `Less` and `Swap`. Modelled by the library's insertion sort over the whole range
(`insertionSort(data, 0, n)`). The library promises an ascending permutation and no
stability; on plain ids every algorithm that keeps that promise produces this very list
(`sortSort_unique`). -/
def sortSort (data : ValueIds) : ValueIds :=
  insertionOuter data 1 (ValueIds.Len data)

/-- The loop of `Uniq`:
`for _, valueId := range ... { if valueId != previous { uniq = append(uniq, valueId); previous = valueId } }`. -/
def uniqLoop : List ValueId → ValueIds → ValueId → ValueIds
  | [], uniq, _ => uniq
  | valueId :: rest, uniq, previous =>
    if valueId != previous then uniqLoop rest (uniq ++ [valueId]) valueId
    else uniqLoop rest uniq previous

/-- What a call of `Uniq` leaves behind: the receiver's backing array after the call, the
returned slice, and whether the returned slice is the receiver itself (`return valueIds`)
or a slice allocated by the call (`uniq := ValueIds{...}`). -/
structure UniqOutcome where
  receiver : ValueIds
  result : ValueIds
  sameSlice : Bool
  deriving DecidableEq

/-- Go: `func (valueIds ValueIds) Uniq() ValueIds`. -/
def ValueIds.Uniq (valueIds : ValueIds) : UniqOutcome :=
  if ValueIds.Len valueIds == 0 then
    { receiver := valueIds, result := valueIds, sameSlice := true }
  else
    let sorted := sortSort valueIds
    let first := sorted.getD 0 0
    { receiver := sorted, result := uniqLoop (sorted.drop 1) [first] first, sameSlice := false }

/-! ## `entities/value.go`: `Values` -/

/-- Go: `type Value struct { Id ValueId; Name string }`. -/
structure Value where
  Id : ValueId
  Name : GoString
  deriving DecidableEq

/-- Go: `type Values []*Value`. An element is a pointer: `none` is the nil pointer,
`some v` points at the value `v`. -/
abbrev Values := List (Option Value)

/-- The text of the run-time panic raised by reading a field through a nil pointer. -/
def nilDereference : GoString :=
  lit "runtime error: invalid memory address or nil pointer dereference"

/-- What a call on a `Values` receiver leaves behind: the receiver's contents after the
call, and the returned boolean or the panic that ended the call. -/
structure ValuesOutcome where
  receiver : Values
  result : Except GoString Bool

/-- The loop of `Contains`:
`for _, value := range values { if value.Id == searchValue.Id { return true } }; return false`. -/
def containsLoop (searchValue : Option Value) : List (Option Value) → Except GoString Bool
  | [] => .ok false
  | value :: rest =>
    match value, searchValue with
    | some value, some searchValue =>
      if value.Id == searchValue.Id then .ok true else containsLoop (some searchValue) rest
    | _, _ => .error nilDereference

/-- Go: `func (values Values) Contains(searchValue *Value) bool`. The loop only reads. -/
def Values.Contains (values : Values) (searchValue : Option Value) : ValuesOutcome :=
  ⟨values, containsLoop searchValue values⟩

/-- The loop of `ContainsName`:
`for _, value := range values { if value.Name == name { return true } }; return false`. -/
def containsNameLoop (name : GoString) : List (Option Value) → Except GoString Bool
  | [] => .ok false
  | value :: rest =>
    match value with
    | some value => if value.Name == name then .ok true else containsNameLoop name rest
    | none => .error nilDereference

/-- Go: `func (values Values) ContainsName(name string) bool`. The loop only reads. -/
def Values.ContainsName (values : Values) (name : GoString) : ValuesOutcome :=
  ⟨values, containsNameLoop name values⟩

/-! ## `main/config.go`: `databasePath` -/

/-- The process environment: the value of each defined variable. -/
abbrev Env := GoString → Option GoString

/-- Go standard library (of the time): `os.Getenverror(key)`, the value of the variable and
an error when the key is empty (`EINVAL`) or the variable is not defined (`ENOENV`). -/
def Getenverror (env : Env) (key : GoString) : Except GoString GoString :=
  if key.length == 0 then .error (lit "invalid argument")
  else
    match env key with
    | some value => .ok value
    | none => .error (lit "no such environment variable")

/-- Go: `const defaultDatabaseName = ".tmsu/db"`. -/
def defaultDatabaseName : GoString := lit ".tmsu/db"

/-- Go: `func databasePath() string`. `.error m` is `panic(m)`. The library function
`filepath.Join` is the parameter `filepathJoin`. -/
def databasePath (env : Env) (filepathJoin : GoString → GoString → GoString) :
    Except GoString GoString :=
  match Getenverror env (lit "TMSU_DB") with
  | .ok path => .ok path
  | .error _ =>
    match Getenverror env (lit "HOME") with
    | .error _ =>
      .error (lit "Could not determine home directory: environment variable 'HOME' does not exist.")
    | .ok homePath => .ok (filepathJoin homePath defaultDatabaseName)

/-! ## `cli/commands/mount.go`: the world the command runs in -/

/-- The part of `os.FileInfo` the command looks at. -/
structure FileInfo where
  isDir : Bool
  deriving DecidableEq

/-- An entry of `vfs.GetMountTable()`. -/
structure Mount where
  DatabasePath : GoString
  MountPath : GoString
  deriving DecidableEq

/-- The part of `common.DatabaseConfig` the command looks at. -/
structure DatabaseConfig where
  DatabasePath : GoString
  deriving DecidableEq

/-- The answers of the operating system and of the packages outside this file.

* `args0`: `os.Args[0]`.
* `stat path`: `os.Stat(path)`, an error or the (possibly nil) file info.
* `stderrPipe`: the error of `daemon.StderrPipe()`, if any.
* `start`: the error of `daemon.Start()`, if any; `none` means a child process now exists.
* `wait4`: `syscall.Wait4(pid, &waitStatus, WNOHANG, &rusage)` after the sleep: an error,
  or `none` when the child has not changed state (nothing is stored), or `some ws` when
  the status word `ws` was stored into `waitStatus`.
* `stderrText`: the bytes the child wrote to its standard error before it exited.
* `readError`: an input/output error of the read from the pipe, if any.
* `getMountTable`: `vfs.GetMountTable()`.
* `getSelectedDatabaseConfig`, `getDefaultDatabaseConfig`: the two functions of package
  `common`, an error or the (possibly nil) configuration. -/
structure World where
  args0 : GoString
  stat : GoString → Except GoString (Option FileInfo)
  stderrPipe : Option GoString
  start : Option GoString
  wait4 : Except GoString (Option Nat)
  stderrText : List UInt8
  readError : Option GoString
  getMountTable : Except GoString (List Mount)
  getSelectedDatabaseConfig : Except GoString (Option DatabaseConfig)
  getDefaultDatabaseConfig : Except GoString (Option DatabaseConfig)

/-- What the command does to the outside, in order. `spawn name args` is recorded when
`daemon.Start()` has succeeded for the command built by `exec.Command(name, args...)`;
`startFailed` when it has failed. -/
inductive Event where
  | stat (path : GoString)
  | log (message : GoString)
  | stderrPipe
  | spawn (name : GoString) (args : List GoString)
  | startFailed (name : GoString) (args : List GoString)
  | sleep (nanoseconds : Nat)
  | wait4
  | read (bufferSize : Nat)
  | getMountTable
  | print (text : GoString)
  | getSelectedDatabaseConfig
  | getDefaultDatabaseConfig
  deriving DecidableEq

/-- Whether the event is the start of a child process. -/
def Event.isSpawn : Event → Bool
  | .spawn _ _ => true
  | _ => false

/-- Whether the event is a look at the mount table or a line printed from it. -/
def Event.isListing : Event → Bool
  | .getMountTable => true
  | .print _ => true
  | _ => false

/-- The number of child processes started in a trace. -/
def spawnCount (trace : List Event) : Nat := trace.countP Event.isSpawn

/-- The run of a function that returns `error`: what it did and what it returned. -/
structure Outcome where
  trace : List Event
  err : Option GoString
  deriving DecidableEq

/-- Go standard library (Linux): `func (w WaitStatus) Exited() bool`, `w&0x7F == 0`.
The low seven bits of `w` are `w % 128`. -/
def WaitStatus.Exited (w : Nat) : Bool := w % 128 == 0

/-- Go standard library (Linux): `func (w WaitStatus) ExitStatus() int`,
`-1` unless `Exited()`, else `int(w>>8) & 0xFF`, which is `w / 256 % 256`. -/
def WaitStatus.ExitStatus (w : Nat) : Int :=
  if !WaitStatus.Exited w then -1 else ((w / 256 % 256 : Nat) : Int)

/-- Go standard library: `errorPipe.Read(buffer)` on the read end of the child's
standard-error pipe once the child has exited, with `len(buffer) = n`. One read returns
the bytes present, at most `n` of them; with nothing left to read it returns `0, io.EOF`. -/
def pipeRead (w : World) (n : Nat) : Except GoString (List UInt8) :=
  match w.readError with
  | some err => .error err
  | none => if w.stderrText.isEmpty then .error (lit "EOF") else .ok (w.stderrText.take n)

/-- Go: `const HALF_SECOND = 500000000`. -/
def HALF_SECOND : Nat := 500000000

/-! ## `cli/commands/mount.go`: `MountCommand` -/

/-- Go: `func (command MountCommand) listMounts() error`. -/
def listMounts (w : World) (verbose : Bool) : Outcome :=
  let t1 := if verbose then [Event.log (lit "retrieving mount table.")] else []
  let t2 := t1 ++ [Event.getMountTable]
  match w.getMountTable with
  | .error err => ⟨t2, some err⟩
  | .ok mt =>
    let t3 := t2 ++
      (if verbose && mt.length == 0 then [Event.log (lit "mount table is empty.")] else [])
    let t4 := t3 ++ mt.map (fun mount =>
      Event.print (lit "'" ++ mount.DatabasePath ++ lit "' at '" ++ mount.MountPath ++ lit "'\n"))
    ⟨t4, none⟩

/-- The second half of `mountExplicit`, from `time.Sleep(HALF_SECOND)` on: the readiness
probe of the child that has just been started. -/
def probeDaemon (w : World) (verbose : Bool) : Outcome :=
  let t1 := (if verbose then [Event.log (lit "sleeping.")] else []) ++ [Event.sleep HALF_SECOND]
  let t2 := t1 ++
    (if verbose then [Event.log (lit "checking whether daemon started successfully.")] else [])
    ++ [Event.wait4]
  match w.wait4 with
  | .error err => ⟨t2, some err⟩
  | .ok stored =>
    -- `var waitStatus syscall.WaitStatus` starts at zero and is overwritten only when a
    -- status was stored.
    let waitStatus : Nat := stored.getD 0
    if WaitStatus.Exited waitStatus then
      if WaitStatus.ExitStatus waitStatus != 0 then
        -- `buffer := make([]byte, 1024)`
        let t3 := t2 ++ [Event.read 1024]
        match pipeRead w 1024 with
        | .error err => ⟨t3, some err⟩
        | .ok read => ⟨t3, some (lit "Could not mount VFS: " ++ read)⟩
      else ⟨t2, none⟩
    else ⟨t2, none⟩

/-- Go: `func (command MountCommand) mountExplicit(databasePath string, mountPath string) error`. -/
def mountExplicit (w : World) (verbose : Bool) (databasePath mountPath : GoString) : Outcome :=
  let t1 := [Event.stat mountPath]
  match w.stat mountPath with
  | .error err => ⟨t1, some err⟩
  | .ok none => ⟨t1, some (lit "Mount point '" ++ mountPath ++ lit "' does not exist.")⟩
  | .ok (some fileInfo) =>
    if !fileInfo.isDir then
      ⟨t1, some (lit "Mount point '" ++ mountPath ++ lit "' is not a directory.")⟩
    else
      let t2 := t1 ++ [Event.stat databasePath]
      match w.stat databasePath with
      | .error err => ⟨t2, some err⟩
      | .ok none => ⟨t2, some (lit "Database '" ++ databasePath ++ lit "' does not exist.")⟩
      | .ok (some _) =>
        let t3 := t2 ++
          (if verbose then
            [Event.log (lit "spawning daemon to mount VFS for database '" ++ databasePath
              ++ lit "' at '" ++ mountPath ++ lit "'.")]
           else [])
        -- `daemon := exec.Command(os.Args[0], "vfs", databasePath, mountPath)`
        let name := w.args0
        let args := [lit "vfs", databasePath, mountPath]
        let t4 := t3 ++ [Event.stderrPipe]
        match w.stderrPipe with
        | some err => ⟨t4, some err⟩
        | none =>
          match w.start with
          | some err => ⟨t4 ++ [Event.startFailed name args], some err⟩
          | none =>
            let t5 := t4 ++ [Event.spawn name args]
            let probe := probeDaemon w verbose
            ⟨t5 ++ probe.trace, probe.err⟩

/-- Go: `func (command MountCommand) mountSelected(mountPath string) error`. -/
def mountSelected (w : World) (verbose : Bool) (mountPath : GoString) : Outcome :=
  let t1 := [Event.getSelectedDatabaseConfig]
  match w.getSelectedDatabaseConfig with
  | .error err => ⟨t1, some err⟩
  | .ok (some config) =>
    let r := mountExplicit w verbose config.DatabasePath mountPath
    match r.err with
    | some err => ⟨t1 ++ r.trace, some err⟩
    | none => ⟨t1 ++ r.trace, none⟩
  | .ok none =>
    let t2 := t1 ++ [Event.getDefaultDatabaseConfig]
    match w.getDefaultDatabaseConfig with
    | .error err => ⟨t2, some err⟩
    | .ok none => ⟨t2, some (lit "Could not get default database configuration.")⟩
    | .ok (some config) =>
      let r := mountExplicit w verbose config.DatabasePath mountPath
      match r.err with
      | some err => ⟨t2 ++ r.trace, some err⟩
      | none => ⟨t2 ++ r.trace, none⟩

/-- Go: `func (command MountCommand) Exec(options cli.Options, args []string) error`.
`verboseOption` is the value of `options.HasOption("--verbose")`. -/
def Exec (w : World) (verboseOption : Bool) (args : List GoString) : Outcome :=
  let verbose := verboseOption
  let argCount := args.length
  match argCount with
  | 0 =>
    let r := listMounts w verbose
    match r.err with
    | some err => ⟨r.trace, some (lit "Could not list mounts: " ++ err)⟩
    | none => ⟨r.trace, none⟩
  | 1 =>
    let mountPath := args.getD 0 []
    let r := mountSelected w verbose mountPath
    match r.err with
    | some err => ⟨r.trace, some (lit "Could not mount database: " ++ err)⟩
    | none => ⟨r.trace, none⟩
  | 2 =>
    let databasePath := args.getD 0 []
    let mountPath := args.getD 1 []
    let r := mountExplicit w verbose databasePath mountPath
    match r.err with
    | some err => ⟨r.trace, some (lit "Could not mount database: " ++ err)⟩
    | none => ⟨r.trace, none⟩
  | _ => ⟨[], some (lit "Too many arguments.")⟩

/-! ## Sample worlds -/

/-- A world in which every path is a directory, the child starts, and by the time of the
probe it has exited with status 1 (status word `256`) after writing `text` to its
standard error. -/
def failingWorld (text : List UInt8) : World where
  args0 := lit "tmsu"
  stat := fun _ => .ok (some ⟨true⟩)
  stderrPipe := none
  start := none
  wait4 := .ok (some 256)
  stderrText := text
  readError := none
  getMountTable := .ok []
  getSelectedDatabaseConfig := .ok none
  getDefaultDatabaseConfig := .ok (some ⟨lit "/home/u/.tmsu/db"⟩)

/-- A world in which `/mnt` is a directory, `/db` and `/file` are regular files, nothing
else exists, and a started child is still running at the time of the probe. -/
def healthyWorld : World where
  args0 := lit "tmsu"
  stat := fun path =>
    if path == lit "/mnt" then .ok (some ⟨true⟩)
    else if path == lit "/db" || path == lit "/file" then .ok (some ⟨false⟩)
    else .error (lit "no such file or directory")
  stderrPipe := none
  start := none
  wait4 := .ok none
  stderrText := []
  readError := none
  getMountTable := .ok [⟨lit "/db", lit "/mnt"⟩]
  getSelectedDatabaseConfig := .ok (some ⟨lit "/db"⟩)
  getDefaultDatabaseConfig := .ok (some ⟨lit "/home/u/.tmsu/db"⟩)

/-- A world in which the mount table cannot be read, no database is selected and there
is no default configuration. -/
def unreadableTableWorld : World where
  args0 := lit "tmsu"
  stat := fun _ => .error (lit "no such file or directory")
  stderrPipe := none
  start := none
  wait4 := .ok none
  stderrText := []
  readError := none
  getMountTable := .error (lit "permission denied")
  getSelectedDatabaseConfig := .ok none
  getDefaultDatabaseConfig := .ok none

/-- A standard-error text of 1025 bytes, each the letter `x`. -/
def longText : List UInt8 := List.replicate 1025 120

/-! ## Theorems: `sort.Sort` through `Len`, `Less`, `Swap` -/

theorem Less_adjacent (pre post : List ValueId) (x y : ValueId) :
    ValueIds.Less (pre ++ y :: x :: post) (pre.length + 1) pre.length = decide (x < y) := by
  have h1 : (pre ++ y :: x :: post).getD (pre.length + 1) 0 = x := by
    rw [List.getD_append_right _ _ _ _ (by omega)]; simp
  have h2 : (pre ++ y :: x :: post).getD pre.length 0 = y := by
    rw [List.getD_append_right _ _ _ _ (by omega)]; simp
  rw [ValueIds.Less, h1, h2]

theorem Swap_adjacent (pre post : List ValueId) (x y : ValueId) :
    ValueIds.Swap (pre ++ y :: x :: post) (pre.length + 1) pre.length
      = pre ++ x :: y :: post := by
  have h1 : (pre ++ y :: x :: post).getD (pre.length + 1) 0 = x := by
    rw [List.getD_append_right _ _ _ _ (by omega)]; simp
  have h2 : (pre ++ y :: x :: post).getD pre.length 0 = y := by
    rw [List.getD_append_right _ _ _ _ (by omega)]; simp
  simp only [ValueIds.Swap, h1, h2]
  simp [List.set_append]

theorem insertionInner_spec (pre : List ValueId) :
    ∀ (x : ValueId) (post : List ValueId),
      ∃ q, insertionInner (pre ++ x :: post) pre.length = q ++ post ∧
        q.Perm (pre ++ [x]) ∧ (pre.Sorted (· ≤ ·) → q.Sorted (· ≤ ·)) := by
  induction pre using List.reverseRecOn with
  | nil =>
    intro x post
    exact ⟨[x], by simp [insertionInner], by simp, fun _ => by simp⟩
  | append_singleton p y ih =>
    intro x post
    have hlen : (p ++ [y]).length = p.length + 1 := by simp
    have hshape : p ++ [y] ++ x :: post = p ++ y :: x :: post := by simp
    rw [hlen, hshape, insertionInner, Less_adjacent, Swap_adjacent]
    by_cases hxy : x < y
    · obtain ⟨q, hq, hperm, hsorted⟩ := ih x (y :: post)
      refine ⟨q ++ [y], ?_, ?_, ?_⟩
      · simp [hxy, hq]
      · calc (q ++ [y]).Perm ((p ++ [x]) ++ [y]) := hperm.append_right _
          _ = p ++ ([x] ++ [y]) := by simp
          _ |>.Perm (p ++ ([y] ++ [x])) := (List.perm_append_comm).append_left p
          _ = p ++ [y] ++ [x] := by simp
      · intro hs
        have hs' : List.Sorted (· ≤ ·) p ∧ ∀ a ∈ p, a ≤ y := by
          simpa [List.Sorted, List.pairwise_append] using hs
        have hq' := hsorted hs'.1
        simp only [List.Sorted, List.pairwise_append, List.pairwise_cons, List.mem_singleton,
          List.not_mem_nil, List.Pairwise.nil, and_true, forall_eq, false_imp_iff,
          implies_true] at hq' ⊢
        refine ⟨hq', trivial, fun a ha => ?_⟩
        have : a ∈ p ++ [x] := hperm.subset ha
        rcases List.mem_append.mp this with h | h
        · exact hs'.2 a h
        · simp at h; subst h; exact le_of_lt hxy
    · refine ⟨p ++ [y] ++ [x], ?_, List.Perm.refl _, ?_⟩
      · simp [hxy]
      · intro hs
        have hs' : List.Sorted (· ≤ ·) p ∧ ∀ a ∈ p, a ≤ y := by
          simpa [List.Sorted, List.pairwise_append] using hs
        simp only [List.Sorted] at hs ⊢
        rw [List.pairwise_append]
        refine ⟨hs, by simp, fun a ha b hb => ?_⟩
        simp at hb
        subst hb
        show a ≤ b
        rcases List.mem_append.mp ha with h | h
        · exact le_trans (hs'.2 a h) (not_lt.mp hxy)
        · simp at h; subst h; exact not_lt.mp hxy

theorem insertionOuter_spec (rest : List ValueId) :
    ∀ (s : List ValueId) (fuel : Nat), rest.length ≤ fuel → s.Sorted (· ≤ ·) →
      (insertionOuter (s ++ rest) s.length fuel).Sorted (· ≤ ·) ∧
        (insertionOuter (s ++ rest) s.length fuel).Perm (s ++ rest) := by
  induction rest with
  | nil =>
    intro s fuel _ hs
    cases fuel with
    | zero => simpa [insertionOuter] using hs
    | succ f => simpa [insertionOuter, ValueIds.Len] using hs
  | cons x r ih =>
    intro s fuel hfuel hs
    cases fuel with
    | zero => simp at hfuel
    | succ f =>
      obtain ⟨q, hq, hperm, hsorted⟩ := insertionInner_spec s x r
      have hqlen : q.length = s.length + 1 := by simpa using hperm.length_eq
      have hlt : s.length < ValueIds.Len (s ++ x :: r) := by simp [ValueIds.Len]
      rw [insertionOuter, if_pos hlt, hq, ← hqlen]
      obtain ⟨h1, h2⟩ := ih q f (by simpa using hfuel) (hsorted hs)
      refine ⟨h1, h2.trans ?_⟩
      have : (q ++ r).Perm ((s ++ [x]) ++ r) := hperm.append_right r
      simpa using this

theorem sortSort_spec (data : ValueIds) :
    (sortSort data).Sorted (· ≤ ·) ∧ (sortSort data).Perm data := by
  cases data with
  | nil => simp [sortSort, insertionOuter, ValueIds.Len]
  | cons x r =>
    have := insertionOuter_spec r [x] (r.length + 1) (by omega) (by simp)
    simpa [sortSort, ValueIds.Len] using this

theorem sortSort_sorted (data : ValueIds) : (sortSort data).Sorted (· ≤ ·) :=
  (sortSort_spec data).1

theorem sortSort_perm (data : ValueIds) : (sortSort data).Perm data :=
  (sortSort_spec data).2

/-- Any procedure that keeps the promise of `sort.Sort` (an ascending permutation of its
input) returns what `sortSort` returns. -/
theorem sortSort_unique (data out : ValueIds) (hs : out.Sorted (· ≤ ·))
    (hp : out.Perm data) : out = sortSort data :=
  List.eq_of_perm_of_sorted (hp.trans (sortSort_perm data).symm) hs (sortSort_sorted data)

/-! ## Theorems: the loop of `Uniq` -/

theorem uniqLoop_acc (l : List ValueId) :
    ∀ (uniq : ValueIds) (previous : ValueId),
      uniqLoop l uniq previous = uniq ++ uniqLoop l [] previous := by
  induction l with
  | nil => intro uniq previous; simp [uniqLoop]
  | cons v r ih =>
    intro uniq previous
    by_cases h : v = previous
    · simp [uniqLoop, h, ih uniq previous]
    · simp [uniqLoop, h, ih (uniq ++ [v]) v, ih [v] v]

theorem uniqLoop_sorted (l : List ValueId) :
    ∀ previous : ValueId, (previous :: l).Sorted (· ≤ ·) →
      (previous :: uniqLoop l [] previous).Sorted (· < ·) ∧
        ∀ id, id ∈ uniqLoop l [] previous ↔ id ∈ l ∧ id ≠ previous := by
  induction l with
  | nil => intro previous _; simp [uniqLoop]
  | cons v r ih =>
    intro previous hs
    have hpv : previous ≤ v := by
      have := List.rel_of_sorted_cons hs v (by simp)
      exact this
    have hvr : (v :: r).Sorted (· ≤ ·) := hs.of_cons
    by_cases h : v = previous
    · subst h
      obtain ⟨h1, h2⟩ := ih v hvr
      refine ⟨by simpa [uniqLoop] using h1, fun id => ?_⟩
      simp only [uniqLoop, bne_self_eq_false, Bool.false_eq_true, if_false, h2,
        List.mem_cons]
      constructor
      · rintro ⟨a, b⟩; exact ⟨Or.inr a, b⟩
      · rintro ⟨a | a, b⟩
        · exact absurd a b
        · exact ⟨a, b⟩
    · obtain ⟨h1, h2⟩ := ih v hvr
      have hlt : previous < v := lt_of_le_of_ne hpv (Ne.symm h)
      have hloop : uniqLoop (v :: r) [] previous = v :: uniqLoop r [] v := by
        simp [uniqLoop, h, uniqLoop_acc r [v] v]
      rw [hloop]
      refine ⟨?_, fun id => ?_⟩
      · exact List.Sorted.cons hlt h1
      · simp only [List.mem_cons, h2]
        constructor
        · rintro (a | ⟨a, b⟩)
          · subst a; exact ⟨Or.inl rfl, h⟩
          · refine ⟨Or.inr a, ?_⟩
            have hvid : v ≤ id := List.rel_of_sorted_cons hvr id a
            exact ne_of_gt (lt_of_lt_of_le hlt hvid)
        · rintro ⟨a | a, _⟩
          · exact Or.inl a
          · by_cases hid : id = v
            · exact Or.inl hid
            · exact Or.inr ⟨a, hid⟩


/-! ## Theorems: `ValueIds.Uniq` -/

theorem Uniq_nil : ValueIds.Uniq [] = ⟨[], [], true⟩ := rfl

/-- On a non-empty receiver `Uniq` sorts the receiver and returns a fresh slice: the
first element of the sorted receiver followed by the loop over the rest. -/
theorem Uniq_cons (x : ValueId) (r : List ValueId) :
    ∃ first rest, sortSort (x :: r) = first :: rest ∧
      ValueIds.Uniq (x :: r) = ⟨first :: rest, first :: uniqLoop rest [] first, false⟩ := by
  have hperm := sortSort_perm (x :: r)
  cases hsort : sortSort (x :: r) with
  | nil => rw [hsort] at hperm; simp at hperm
  | cons first rest =>
    refine ⟨first, rest, rfl, ?_⟩
    simp [ValueIds.Uniq, ValueIds.Len, hsort, uniqLoop_acc rest [first] first]

theorem Uniq_result_spec (valueIds : ValueIds) :
    (ValueIds.Uniq valueIds).result.Sorted (· < ·) ∧
      ∀ id, id ∈ (ValueIds.Uniq valueIds).result ↔ id ∈ valueIds := by
  cases valueIds with
  | nil => simp [Uniq_nil]
  | cons x r =>
    obtain ⟨first, rest, hsort, hu⟩ := Uniq_cons x r
    have hs : (first :: rest).Sorted (· ≤ ·) := hsort ▸ sortSort_sorted (x :: r)
    have hp : (first :: rest).Perm (x :: r) := hsort ▸ sortSort_perm (x :: r)
    obtain ⟨h1, h2⟩ := uniqLoop_sorted rest first hs
    rw [hu]
    refine ⟨h1, fun id => ?_⟩
    rw [← hp.mem_iff]
    simp only [List.mem_cons, h2]
    constructor
    · rintro (a | ⟨a, _⟩)
      · exact Or.inl a
      · exact Or.inr a
    · rintro (a | a)
      · exact Or.inl a
      · by_cases hid : id = first
        · exact Or.inl hid
        · exact Or.inr ⟨a, hid⟩

theorem Uniq_result_eq_of_mem_iff (a b : ValueIds) (h : ∀ id, id ∈ a ↔ id ∈ b) :
    (ValueIds.Uniq a).result = (ValueIds.Uniq b).result := by
  obtain ⟨sa, ma⟩ := Uniq_result_spec a
  obtain ⟨sb, mb⟩ := Uniq_result_spec b
  have hperm : (ValueIds.Uniq a).result.Perm (ValueIds.Uniq b).result :=
    (List.perm_ext_iff_of_nodup sa.nodup sb.nodup).2 (fun id => by rw [ma, mb, h])
  exact List.eq_of_perm_of_sorted hperm sa sb

/-- C1: for every list of value ids, the result of `ValueIds.Uniq` is strictly ascending
(so sorted ascending and without a repeated id), and an id occurs in it if and only if it
occurs in the input; it is the sorted list of the set of input ids. `[3,1,2,1,3]` yields
`[1,2,3]` and the empty list yields the empty list. -/
theorem C1_Uniq_ascending_distinct (valueIds : ValueIds) :
    (ValueIds.Uniq valueIds).result.Sorted (· < ·) ∧
    (ValueIds.Uniq valueIds).result.Sorted (· ≤ ·) ∧
    (ValueIds.Uniq valueIds).result.Nodup ∧
    (∀ id, id ∈ (ValueIds.Uniq valueIds).result ↔ id ∈ valueIds) ∧
    (ValueIds.Uniq valueIds).result = valueIds.toFinset.sort (· ≤ ·) ∧
    (ValueIds.Uniq [3, 1, 2, 1, 3]).result = [1, 2, 3] ∧
    (ValueIds.Uniq []).result = [] := by
  obtain ⟨hs, hm⟩ := Uniq_result_spec valueIds
  refine ⟨hs, hs.le_of_lt, hs.nodup, hm, ?_, by decide, rfl⟩
  refine List.eq_of_perm_of_sorted ?_ hs.le_of_lt (Finset.sort_sorted _ _)
  refine (List.perm_ext_iff_of_nodup hs.nodup (Finset.sort_nodup _ _)).2 (fun id => ?_)
  simp [hm]

/-- C2: `ValueIds.Uniq` does not depend on the order of its input: two id lists that are
permutations of one another, and more generally two id lists with the same set of ids,
give the same result. -/
theorem C2_Uniq_order_independent (a b : ValueIds) :
    (a.Perm b → (ValueIds.Uniq a).result = (ValueIds.Uniq b).result) ∧
    ((∀ id, id ∈ a ↔ id ∈ b) → (ValueIds.Uniq a).result = (ValueIds.Uniq b).result) :=
  ⟨fun hp => Uniq_result_eq_of_mem_iff a b (fun _ => hp.mem_iff),
   Uniq_result_eq_of_mem_iff a b⟩

/-- C2 at a permutation of `[3,1,2,1,3]` and at a list with the same ids. -/
theorem C2_Uniq_order_independent_witness :
    (ValueIds.Uniq [3, 1, 2, 1, 3]).result = (ValueIds.Uniq [1, 1, 2, 3, 3]).result ∧
    (ValueIds.Uniq [3, 1, 2, 1, 3]).result = (ValueIds.Uniq [2, 3, 1]).result :=
  ⟨(C2_Uniq_order_independent [3, 1, 2, 1, 3] [1, 1, 2, 3, 3]).1 (by decide),
   (C2_Uniq_order_independent [3, 1, 2, 1, 3] [2, 3, 1]).2 (by intro id; simp; tauto)⟩

/-- C10: `ValueIds.Uniq` writes to its receiver. After a call on a non-empty list the
receiver holds an ascending permutation of its original contents (same length, every id
as often as before) and the returned slice is a separate one holding the distinct ids in
ascending order; `[3,1,2,1,3]` is left as `[1,1,2,3,3]`. On the empty list the receiver
is unchanged and is itself the returned slice. -/
theorem C10_Uniq_reorders_receiver (valueIds : ValueIds) :
    (valueIds ≠ [] →
      (ValueIds.Uniq valueIds).receiver.Sorted (· ≤ ·) ∧
      (ValueIds.Uniq valueIds).receiver.Perm valueIds ∧
      (ValueIds.Uniq valueIds).receiver.length = valueIds.length ∧
      (∀ id, (ValueIds.Uniq valueIds).receiver.count id = valueIds.count id) ∧
      (ValueIds.Uniq valueIds).receiver = sortSort valueIds ∧
      (ValueIds.Uniq valueIds).sameSlice = false ∧
      (ValueIds.Uniq valueIds).result = (ValueIds.Uniq valueIds).receiver.dedup) ∧
    ValueIds.Uniq [] = ⟨[], [], true⟩ ∧
    ValueIds.Uniq [3, 1, 2, 1, 3] = ⟨[1, 1, 2, 3, 3], [1, 2, 3], false⟩ := by
  refine ⟨fun hne => ?_, rfl, by decide⟩
  cases valueIds with
  | nil => exact absurd rfl hne
  | cons x r =>
    obtain ⟨first, rest, hsort, hu⟩ := Uniq_cons x r
    have hs : (first :: rest).Sorted (· ≤ ·) := hsort ▸ sortSort_sorted (x :: r)
    have hp : (first :: rest).Perm (x :: r) := hsort ▸ sortSort_perm (x :: r)
    obtain ⟨hres, hmem⟩ := Uniq_result_spec (x :: r)
    rw [hu] at hres hmem ⊢
    refine ⟨hs, hp, hp.length_eq, fun id => hp.count_eq id, hsort.symm, rfl, ?_⟩
    refine List.eq_of_perm_of_sorted ?_ hres.le_of_lt ?_
    · refine (List.perm_ext_iff_of_nodup hres.nodup (List.nodup_dedup _)).2 (fun id => ?_)
      rw [hmem, List.mem_dedup, hp.mem_iff]
    · exact List.Pairwise.sublist (List.dedup_sublist _) hs

/-- C10 at the receiver `[2,1,2]`. -/
theorem C10_Uniq_reorders_receiver_witness :
    (ValueIds.Uniq [2, 1, 2]).receiver.Perm [2, 1, 2] ∧
    (ValueIds.Uniq [2, 1, 2]).receiver = [1, 2, 2] :=
  ⟨((C10_Uniq_reorders_receiver [2, 1, 2]).1 (by decide)).2.1, by decide⟩

/-! ## Theorems: `Values.Contains`, `Values.ContainsName` -/

theorem containsLoop_spec (v : Value) (values : List Value) :
    ∃ b, containsLoop (some v) (values.map some) = .ok b ∧
      (b = true ↔ ∃ e ∈ values, e.Id = v.Id) := by
  induction values with
  | nil => exact ⟨false, rfl, by simp⟩
  | cons e r ih =>
    by_cases h : e.Id = v.Id
    · exact ⟨true, by simp [containsLoop, h], by simp [h]⟩
    · obtain ⟨b, hb, hiff⟩ := ih
      exact ⟨b, by simp [containsLoop, h, hb], by simp [h, hiff]⟩

theorem containsNameLoop_spec (name : GoString) (values : List Value) :
    ∃ b, containsNameLoop name (values.map some) = .ok b ∧
      (b = true ↔ ∃ e ∈ values, e.Name = name) := by
  induction values with
  | nil => exact ⟨false, rfl, by simp⟩
  | cons e r ih =>
    by_cases h : e.Name = name
    · exact ⟨true, by simp [containsNameLoop, h], by simp [h]⟩
    · obtain ⟨b, hb, hiff⟩ := ih
      exact ⟨b, by simp [containsNameLoop, h, hb], by simp [h, hiff]⟩

/-- C8: on a `Values` collection of non-nil values, `Contains(v)` returns true exactly
when some element has the id of `v` (so two search values with the same id and different
names get the same answer), `ContainsName(n)` returns true exactly when some element has
the name `n`; both return false on the empty collection, and after either call the
collection is what it was before. -/
theorem C8_Contains_ContainsName (values : List Value) (v : Value) (n : GoString) :
    (∃ b, Values.Contains (values.map some) (some v) = ⟨values.map some, .ok b⟩ ∧
      (b = true ↔ ∃ e ∈ values, e.Id = v.Id)) ∧
    (∀ otherName, (Values.Contains (values.map some) (some ⟨v.Id, otherName⟩)).result
      = (Values.Contains (values.map some) (some v)).result) ∧
    (∃ b, Values.ContainsName (values.map some) n = ⟨values.map some, .ok b⟩ ∧
      (b = true ↔ ∃ e ∈ values, e.Name = n)) ∧
    Values.Contains [] (some v) = ⟨[], .ok false⟩ ∧
    Values.ContainsName [] n = ⟨[], .ok false⟩ := by
  refine ⟨?_, fun otherName => ?_, ?_, rfl, rfl⟩
  · obtain ⟨b, hb, hiff⟩ := containsLoop_spec v values
    exact ⟨b, by simp [Values.Contains, hb], hiff⟩
  · obtain ⟨b, hb, hiff⟩ := containsLoop_spec v values
    obtain ⟨b', hb', hiff'⟩ := containsLoop_spec ⟨v.Id, otherName⟩ values
    have : b' = b := by
      rw [Bool.eq_iff_iff, hiff, hiff']
    simp [Values.Contains, hb, hb', this]
  · obtain ⟨b, hb, hiff⟩ := containsNameLoop_spec n values
    exact ⟨b, by simp [Values.ContainsName, hb], hiff⟩

/-! ## Theorems: `databasePath` -/

theorem Getenverror_TMSU_DB (env : Env) :
    Getenverror env (lit "TMSU_DB")
      = match env (lit "TMSU_DB") with
        | some value => .ok value
        | none => .error (lit "no such environment variable") := by
  simp [Getenverror, lit]

theorem Getenverror_HOME (env : Env) :
    Getenverror env (lit "HOME")
      = match env (lit "HOME") with
        | some value => .ok value
        | none => .error (lit "no such environment variable") := by
  simp [Getenverror, lit]

/-- C9: `databasePath` returns the value of `TMSU_DB` unchanged whenever that variable
is defined, whatever `HOME` is; otherwise, when `HOME` is defined, it returns
`filepath.Join(HOME, ".tmsu/db")`; and it panics if and only if neither of the two
variables is defined. -/
theorem C9_databasePath (env : Env) (filepathJoin : GoString → GoString → GoString) :
    (∀ value, env (lit "TMSU_DB") = some value →
      databasePath env filepathJoin = .ok value) ∧
    (∀ home, env (lit "TMSU_DB") = none → env (lit "HOME") = some home →
      databasePath env filepathJoin = .ok (filepathJoin home (lit ".tmsu/db"))) ∧
    ((∃ message, databasePath env filepathJoin = .error message) ↔
      env (lit "TMSU_DB") = none ∧ env (lit "HOME") = none) := by
  refine ⟨fun value h => ?_, fun home h1 h2 => ?_, ?_⟩
  · simp [databasePath, Getenverror_TMSU_DB, h]
  · simp [databasePath, Getenverror_TMSU_DB, Getenverror_HOME, h1, h2, defaultDatabaseName]
  · cases h1 : env (lit "TMSU_DB") with
    | some value => simp [databasePath, Getenverror_TMSU_DB, h1]
    | none =>
      cases h2 : env (lit "HOME") with
      | some home => simp [databasePath, Getenverror_TMSU_DB, Getenverror_HOME, h1, h2]
      | none => simp [databasePath, Getenverror_TMSU_DB, Getenverror_HOME, h1, h2]

/-- C9 at an environment with both variables and at one with `HOME` alone. -/
theorem C9_databasePath_witness :
    databasePath (fun key => if key = lit "TMSU_DB" then some (lit "/x/db") else
        if key = lit "HOME" then some (lit "/home/u") else none)
      (fun a b => a ++ lit "/" ++ b) = .ok (lit "/x/db") ∧
    databasePath (fun key => if key = lit "HOME" then some (lit "/home/u") else none)
      (fun a b => a ++ lit "/" ++ b) = .ok (lit "/home/u/.tmsu/db") :=
  ⟨(C9_databasePath _ _).1 (lit "/x/db") (by decide),
   (C9_databasePath _ _).2.1 (lit "/home/u") (by decide) (by decide)⟩

/-! ## Theorems: `mountExplicit` -/

theorem probeDaemon_no_spawn (w : World) (verbose : Bool) :
    (probeDaemon w verbose).trace.filter Event.isSpawn = [] := by
  unfold probeDaemon
  cases verbose <;> cases w.wait4 with
  | error e => simp [Event.isSpawn]
  | ok stored =>
    simp only []
    split
    · split
      · cases pipeRead w 1024 <;> simp [Event.isSpawn]
      · simp [Event.isSpawn]
    · simp [Event.isSpawn]

/-- The two ways a call of `mountExplicit` can go: either it stops before a child exists,
with an error and without a spawn, or both paths pass validation, the pipe and the start
succeed, exactly one child is started and the error is that of the probe. -/
theorem mountExplicit_cases (w : World) (verbose : Bool) (databasePath mountPath : GoString) :
    ((mountExplicit w verbose databasePath mountPath).trace.filter Event.isSpawn = [] ∧
      (mountExplicit w verbose databasePath mountPath).err ≠ none ∧
      ¬ ((∃ fi, w.stat mountPath = .ok (some fi) ∧ fi.isDir = true) ∧
          (∃ fi, w.stat databasePath = .ok (some fi)) ∧
          w.stderrPipe = none ∧ w.start = none)) ∨
    ((mountExplicit w verbose databasePath mountPath).trace.filter Event.isSpawn
        = [Event.spawn w.args0 [lit "vfs", databasePath, mountPath]] ∧
      (mountExplicit w verbose databasePath mountPath).err = (probeDaemon w verbose).err ∧
      (∃ fi, w.stat mountPath = .ok (some fi) ∧ fi.isDir = true) ∧
      (∃ fi, w.stat databasePath = .ok (some fi)) ∧
      w.stderrPipe = none ∧ w.start = none) := by
  unfold mountExplicit
  cases h1 : w.stat mountPath with
  | error e => left; simp [Event.isSpawn]
  | ok o1 =>
    cases o1 with
    | none => left; simp [Event.isSpawn]
    | some fileInfo =>
      cases hd : fileInfo.isDir with
      | false => left; simp [Event.isSpawn, hd]
      | true =>
        cases h2 : w.stat databasePath with
        | error e => left; simp [Event.isSpawn, h2, hd]
        | ok o2 =>
          cases o2 with
          | none => left; simp [Event.isSpawn, h2, hd]
          | some fi2 =>
            cases h3 : w.stderrPipe with
            | some e => left; cases verbose <;> simp [Event.isSpawn, h2, hd]
            | none =>
              cases h4 : w.start with
              | some e => left; cases verbose <;> simp [Event.isSpawn, h2, hd]
              | none =>
                right
                cases verbose <;>
                  simp [Event.isSpawn, h2, hd, List.filter_append, probeDaemon_no_spawn]

/-- C3: `mountExplicit` validates before it spawns. If the stat of the mount path fails,
or the mount path is not a directory, or the stat of the database path fails, the call
returns an error and no child process has been started; a child process is started only
when the mount path is an existing directory and the database path exists. Mounting the
database `/db` on the regular file `/file` fails with spawn count zero. -/
theorem C3_validates_before_spawning (w : World) (verbose : Bool)
    (databasePath mountPath : GoString) :
    (((∃ e, w.stat mountPath = .error e) ∨
      (∃ fi, w.stat mountPath = .ok (some fi) ∧ fi.isDir = false) ∨
      (∃ e, w.stat databasePath = .error e)) →
        (mountExplicit w verbose databasePath mountPath).err ≠ none ∧
        spawnCount (mountExplicit w verbose databasePath mountPath).trace = 0) ∧
    (0 < spawnCount (mountExplicit w verbose databasePath mountPath).trace →
      (∃ fi, w.stat mountPath = .ok (some fi) ∧ fi.isDir = true) ∧
      (∃ fi, w.stat databasePath = .ok (some fi))) ∧
    mountExplicit healthyWorld false (lit "/db") (lit "/file")
      = ⟨[Event.stat (lit "/file")], some (lit "Mount point '/file' is not a directory.")⟩ ∧
    spawnCount (mountExplicit healthyWorld false (lit "/db") (lit "/file")).trace = 0 := by
  refine ⟨fun h => ?_, fun h => ?_, by decide, by decide⟩
  · rcases mountExplicit_cases w verbose databasePath mountPath with
      ⟨hf, he, _⟩ | ⟨_, _, ⟨fi, h1, hd⟩, ⟨fi2, h2⟩, _, _⟩
    · exact ⟨he, by simp [spawnCount, List.countP_eq_length_filter, hf]⟩
    · rcases h with ⟨e, h⟩ | ⟨fi', h, hd'⟩ | ⟨e, h⟩
      · rw [h1] at h; cases h
      · rw [h1] at h; cases h; rw [hd] at hd'; cases hd'
      · rw [h2] at h; cases h
  · rcases mountExplicit_cases w verbose databasePath mountPath with
      ⟨hf, _, _⟩ | ⟨_, _, hm, hdb, _, _⟩
    · simp [spawnCount, List.countP_eq_length_filter, hf] at h
    · exact ⟨hm, hdb⟩

/-- C3 at a mount path that does not exist and at a mount that does go through. -/
theorem C3_validates_before_spawning_witness :
    healthyWorld.stat (lit "/nowhere") = .error (lit "no such file or directory") ∧
    ((mountExplicit healthyWorld true (lit "/db") (lit "/nowhere")).err ≠ none ∧
      spawnCount (mountExplicit healthyWorld true (lit "/db") (lit "/nowhere")).trace = 0) ∧
    0 < spawnCount (mountExplicit healthyWorld true (lit "/db") (lit "/mnt")).trace ∧
    ((∃ fi, healthyWorld.stat (lit "/mnt") = .ok (some fi) ∧ fi.isDir = true) ∧
      (∃ fi, healthyWorld.stat (lit "/db") = .ok (some fi))) :=
  ⟨rfl,
   (C3_validates_before_spawning healthyWorld true (lit "/db") (lit "/nowhere")).1
    (Or.inl ⟨lit "no such file or directory", rfl⟩),
   by decide,
   (C3_validates_before_spawning healthyWorld true (lit "/db") (lit "/mnt")).2.1 (by decide)⟩

/-- C7: a call `mountExplicit(databasePath, mountPath)` starts at most one child; every
child it starts is the program itself (`os.Args[0]`) with the argument list
`["vfs", databasePath, mountPath]`, both paths unchanged and in that order; and it does
start that child whenever both paths pass validation and the pipe and the start succeed. -/
theorem C7_spawn_arguments (w : World) (verbose : Bool) (databasePath mountPath : GoString) :
    spawnCount (mountExplicit w verbose databasePath mountPath).trace ≤ 1 ∧
    (∀ e ∈ (mountExplicit w verbose databasePath mountPath).trace, e.isSpawn = true →
      e = Event.spawn w.args0 [lit "vfs", databasePath, mountPath]) ∧
    (0 < spawnCount (mountExplicit w verbose databasePath mountPath).trace →
      (mountExplicit w verbose databasePath mountPath).trace.filter Event.isSpawn
        = [Event.spawn w.args0 [lit "vfs", databasePath, mountPath]]) ∧
    ((∃ fi, w.stat mountPath = .ok (some fi) ∧ fi.isDir = true) →
      (∃ fi, w.stat databasePath = .ok (some fi)) → w.stderrPipe = none → w.start = none →
      spawnCount (mountExplicit w verbose databasePath mountPath).trace = 1) ∧
    (mountExplicit healthyWorld false (lit "/db") (lit "/mnt")).trace.filter Event.isSpawn
      = [Event.spawn (lit "tmsu") [lit "vfs", lit "/db", lit "/mnt"]] := by
  have hmem : ∀ (t : List Event) (e : Event), e ∈ t → e.isSpawn = true →
      e ∈ t.filter Event.isSpawn := fun t e h1 h2 => List.mem_filter.2 ⟨h1, h2⟩
  rcases mountExplicit_cases w verbose databasePath mountPath with
    ⟨hf, _, hn⟩ | ⟨hf, _, hm, hdb, hp, hs⟩
  · refine ⟨by simp [spawnCount, List.countP_eq_length_filter, hf], fun e he hs => ?_,
      fun h => ?_, fun a b c d => absurd ⟨a, b, c, d⟩ hn, by decide⟩
    · have := hmem _ e he hs
      rw [hf] at this; cases this
    · simp [spawnCount, List.countP_eq_length_filter, hf] at h
  · refine ⟨by simp [spawnCount, List.countP_eq_length_filter, hf], fun e he hs => ?_,
      fun _ => hf, fun _ _ _ _ => by simp [spawnCount, List.countP_eq_length_filter, hf],
      by decide⟩
    have := hmem _ e he hs
    rw [hf] at this
    simpa using this

/-- C7 at a mount that goes through. -/
theorem C7_spawn_arguments_witness :
    (mountExplicit healthyWorld true (lit "/db") (lit "/mnt")).trace.filter Event.isSpawn
      = [Event.spawn (lit "tmsu") [lit "vfs", lit "/db", lit "/mnt"]] :=
  (C7_spawn_arguments healthyWorld true (lit "/db") (lit "/mnt")).2.2.1 (by decide)

/-! ## Theorems: the readiness probe -/

theorem probeDaemon_err (w : World) (verbose : Bool) (stored : Option Nat)
    (hwait : w.wait4 = .ok stored) :
    (probeDaemon w verbose).err =
      if WaitStatus.Exited (stored.getD 0) = true ∧ WaitStatus.ExitStatus (stored.getD 0) ≠ 0
      then
        match pipeRead w 1024 with
        | .error err => some err
        | .ok read => some (lit "Could not mount VFS: " ++ read)
      else none := by
  unfold probeDaemon
  rw [hwait]
  by_cases h1 : WaitStatus.Exited (stored.getD 0) = true
  · by_cases h2 : WaitStatus.ExitStatus (stored.getD 0) = 0
    · simp [h1, h2]
    · cases hr : pipeRead w 1024 <;> simp [h1, h2, hr]
  · simp [h1]

theorem mountExplicit_err_of_spawn (w : World) (verbose : Bool)
    (databasePath mountPath : GoString)
    (hspawn : 0 < spawnCount (mountExplicit w verbose databasePath mountPath).trace) :
    (mountExplicit w verbose databasePath mountPath).err = (probeDaemon w verbose).err := by
  rcases mountExplicit_cases w verbose databasePath mountPath with ⟨hf, _, _⟩ | ⟨_, he, _⟩
  · simp [spawnCount, List.countP_eq_length_filter, hf] at hspawn
  · exact he

theorem failingWorld_spawnCount (text : List UInt8) (verbose : Bool)
    (databasePath mountPath : GoString) :
    spawnCount (mountExplicit (failingWorld text) verbose databasePath mountPath).trace = 1 := by
  have h := probeDaemon_no_spawn (failingWorld text) verbose
  cases verbose <;>
    simp [mountExplicit, failingWorld, spawnCount, List.countP_eq_length_filter,
      List.filter_append, Event.isSpawn] <;>
    simpa [failingWorld] using congrArg List.length h

theorem failingWorld_err (text : List UInt8) (verbose : Bool)
    (databasePath mountPath : GoString) :
    (mountExplicit (failingWorld text) verbose databasePath mountPath).err =
      if text.isEmpty then some (lit "EOF")
      else some (lit "Could not mount VFS: " ++ text.take 1024) := by
  have hspawn : 0 < spawnCount
      (mountExplicit (failingWorld text) verbose databasePath mountPath).trace := by
    rw [failingWorld_spawnCount]; exact Nat.one_pos
  rw [mountExplicit_err_of_spawn _ _ _ _ hspawn,
    probeDaemon_err (failingWorld text) verbose (some 256) rfl]
  have h1 : WaitStatus.Exited 256 = true := by decide
  have h2 : WaitStatus.ExitStatus 256 ≠ 0 := by decide
  simp only [Option.getD_some, h1, h2, ne_eq, not_false_eq_true, and_self, if_true]
  cases h : text.isEmpty <;> simp [pipeRead, failingWorld, h]

theorem longText_take : longText.take 1024 = List.replicate 1024 120 := by
  rw [longText, List.take_replicate]
  rfl

theorem longText_not_infix :
    ¬ longText <:+: lit "Could not mount VFS: " ++ List.replicate 1024 120 := by
  intro h
  have hc := h.sublist.count_le (120 : UInt8)
  have h1 : List.count (120 : UInt8) (lit "Could not mount VFS: ") = 0 := by decide
  rw [List.count_append, h1, longText, List.count_replicate_self,
    List.count_replicate_self] at hc
  exact absurd hc (by decide)

/-- C4, as stated, fails: in a world where the started child has exited with status 1
after writing 1025 bytes to its standard error, `mountExplicit` returns the error
`Could not mount VFS: ` followed by the first 1024 of those bytes, a message that does
not contain the 1025-byte text. (And with an empty text the error returned is `EOF`.) -/
theorem C4_counterexample :
    0 < spawnCount (mountExplicit (failingWorld longText) false (lit "/db") (lit "/mnt")).trace ∧
    (failingWorld longText).wait4 = .ok (some 256) ∧
    WaitStatus.Exited 256 = true ∧ WaitStatus.ExitStatus 256 ≠ 0 ∧
    (failingWorld longText).stderrText = longText ∧
    (mountExplicit (failingWorld longText) false (lit "/db") (lit "/mnt")).err
      = some (lit "Could not mount VFS: " ++ List.replicate 1024 120) ∧
    (¬ ∃ message,
      (mountExplicit (failingWorld longText) false (lit "/db") (lit "/mnt")).err = some message ∧
        longText <:+: message) ∧
    (mountExplicit (failingWorld []) false (lit "/db") (lit "/mnt")).err = some (lit "EOF") := by
  have herr : (mountExplicit (failingWorld longText) false (lit "/db") (lit "/mnt")).err
      = some (lit "Could not mount VFS: " ++ List.replicate 1024 120) := by
    rw [failingWorld_err, longText_take]
    rfl
  refine ⟨?_, rfl, by decide, by decide, rfl, herr, ?_, by decide⟩
  · rw [failingWorld_spawnCount]; exact Nat.one_pos
  · rintro ⟨message, hm, hinfix⟩
    rw [herr] at hm
    cases hm
    exact longText_not_infix hinfix

/-- C4, amended: when the started child has exited with a non-zero status at the time of
the probe, `mountExplicit` returns an error. If the read from the pipe does not fail and
the captured text is not empty, the message is `Could not mount VFS: ` followed by the
first 1024 bytes of the text; so when the text has at most 1024 bytes the message is
`Could not mount VFS: ` followed by the whole text and contains it verbatim. -/
theorem C4_probe_failure_message (w : World) (verbose : Bool)
    (databasePath mountPath : GoString) (ws : Nat)
    (hspawn : 0 < spawnCount (mountExplicit w verbose databasePath mountPath).trace)
    (hwait : w.wait4 = .ok (some ws))
    (hexited : WaitStatus.Exited ws = true) (hstatus : WaitStatus.ExitStatus ws ≠ 0) :
    (mountExplicit w verbose databasePath mountPath).err ≠ none ∧
    (w.readError = none → w.stderrText ≠ [] →
      (mountExplicit w verbose databasePath mountPath).err
        = some (lit "Could not mount VFS: " ++ w.stderrText.take 1024)) ∧
    (w.readError = none → w.stderrText ≠ [] → w.stderrText.length ≤ 1024 →
      (mountExplicit w verbose databasePath mountPath).err
        = some (lit "Could not mount VFS: " ++ w.stderrText) ∧
      ∃ message, (mountExplicit w verbose databasePath mountPath).err = some message ∧
        w.stderrText <:+: message) := by
  have herr := mountExplicit_err_of_spawn w verbose databasePath mountPath hspawn
  rw [probeDaemon_err w verbose (some ws) hwait] at herr
  simp only [Option.getD_some, hexited, hstatus, ne_eq, not_false_eq_true, and_self,
    if_true] at herr
  refine ⟨?_, fun hr hne => ?_, fun hr hne hlen => ?_⟩
  · rw [herr]; cases pipeRead w 1024 <;> simp
  · rw [herr]; simp [pipeRead, hr, hne]
  · have htake : w.stderrText.take 1024 = w.stderrText := List.take_of_length_le hlen
    have : (mountExplicit w verbose databasePath mountPath).err
        = some (lit "Could not mount VFS: " ++ w.stderrText) := by
      rw [herr]; simp [pipeRead, hr, hne, htake]
    exact ⟨this, _, this, List.infix_append' _ _ []  |> fun h => by simpa using h⟩

/-- C4, amended, at a child that wrote `boom` and exited with status 1. -/
theorem C4_probe_failure_message_witness :
    0 < spawnCount (mountExplicit (failingWorld (lit "boom")) true (lit "/db") (lit "/mnt")).trace ∧
    (failingWorld (lit "boom")).wait4 = .ok (some 256) ∧
    WaitStatus.Exited 256 = true ∧ WaitStatus.ExitStatus 256 ≠ 0 ∧
    (mountExplicit (failingWorld (lit "boom")) true (lit "/db") (lit "/mnt")).err
      = some (lit "Could not mount VFS: boom") :=
  ⟨by decide, rfl, by decide, by decide,
   ((C4_probe_failure_message (failingWorld (lit "boom")) true (lit "/db") (lit "/mnt") 256
    (by decide) rfl (by decide) (by decide)).2.2 rfl (by decide) (by decide)).1⟩

/-- C5: when validation passes, the child is started and the exit-status check itself
succeeds, `mountExplicit` returns no error unless the child has exited with a non-zero
status: it returns nil when the child is still running (no status stored), when it has
exited with status 0, and when it ended without a normal exit (for instance by a signal). -/
theorem C5_probe_success (w : World) (verbose : Bool) (databasePath mountPath : GoString)
    (stored : Option Nat)
    (hspawn : 0 < spawnCount (mountExplicit w verbose databasePath mountPath).trace)
    (hwait : w.wait4 = .ok stored) :
    ((mountExplicit w verbose databasePath mountPath).err = none ↔
      ¬ (∃ ws, stored = some ws ∧ WaitStatus.Exited ws = true ∧ WaitStatus.ExitStatus ws ≠ 0)) ∧
    (stored = none → (mountExplicit w verbose databasePath mountPath).err = none) ∧
    (∀ ws, stored = some ws → WaitStatus.Exited ws = true → WaitStatus.ExitStatus ws = 0 →
      (mountExplicit w verbose databasePath mountPath).err = none) ∧
    (∀ ws, stored = some ws → WaitStatus.Exited ws = false →
      (mountExplicit w verbose databasePath mountPath).err = none) := by
  have herr := mountExplicit_err_of_spawn w verbose databasePath mountPath hspawn
  rw [probeDaemon_err w verbose stored hwait] at herr
  refine ⟨?_, fun h => ?_, fun ws h h1 h2 => ?_, fun ws h h1 => ?_⟩
  · rw [herr]
    cases stored with
    | none => simp [WaitStatus.Exited, WaitStatus.ExitStatus]
    | some ws =>
      by_cases h1 : WaitStatus.Exited ws = true
      · by_cases h2 : WaitStatus.ExitStatus ws = 0
        · simp [h1, h2]
        · cases pipeRead w 1024 <;> simp [h1, h2]
      · simp [h1]
  · rw [herr, h]; simp [WaitStatus.Exited, WaitStatus.ExitStatus]
  · rw [herr, h]; simp [h1, h2]
  · rw [herr, h]; simp [h1]

/-- C5 at a child that is still running when the probe looks. -/
theorem C5_probe_success_witness :
    0 < spawnCount (mountExplicit healthyWorld true (lit "/db") (lit "/mnt")).trace ∧
    healthyWorld.wait4 = .ok none ∧
    (mountExplicit healthyWorld true (lit "/db") (lit "/mnt")).err = none :=
  ⟨by decide, rfl,
   (C5_probe_success healthyWorld true (lit "/db") (lit "/mnt") none (by decide) rfl).2.1 rfl⟩

/-! ## Theorems: `Exec` -/

theorem listMounts_only_lists (w : World) (verbose : Bool) :
    ∀ e ∈ (listMounts w verbose).trace, e.isListing = true ∨ ∃ m, e = Event.log m := by
  intro e he
  unfold listMounts at he
  cases hmt : w.getMountTable with
  | error err =>
    rw [hmt] at he
    cases verbose <;> simp at he <;> rcases he with rfl | rfl <;> simp [Event.isListing]
  | ok mt =>
    rw [hmt] at he
    simp only [List.mem_append, List.mem_map] at he
    rcases he with (he | he) | ⟨mount, _, rfl⟩
    · cases verbose <;> simp at he <;> rcases he with rfl | rfl <;> simp [Event.isListing]
    · split at he
      · simp at he; exact Or.inr ⟨_, he⟩
      · simp at he
    · simp [Event.isListing]

/-- C6: `Exec` dispatches on the number of arguments alone. With no argument it runs
`listMounts` and nothing else (no stat, no configuration lookup, no spawn): it reads the
mount table, and either returns the table's error behind `Could not list mounts: ` with
nothing printed, or prints one line `'DB' at 'MOUNTPOINT'` for each entry, in order, and
returns nil (in verbose mode with the two log lines of the source); with one
argument it runs `mountSelected` on `args[0]`, which mounts the selected database, or
the default one when none is selected, at that path; with two arguments it runs
`mountExplicit` on database `args[0]` and mount point `args[1]`; with three or more it
does nothing and returns `Too many arguments.`. In the first three cases it returns nil
exactly when the action returns nil, and otherwise the action's message prefixed by
`Could not list mounts: ` (no argument) or `Could not mount database: `. A failing
configuration lookup, or a default configuration that is nil, ends `mountSelected` with
that error before any stat or spawn. -/
theorem C6_Exec_dispatch (w : World) (verbose : Bool) :
    ((Exec w verbose []).trace = (listMounts w verbose).trace ∧
      ((Exec w verbose []).err = none ↔ (listMounts w verbose).err = none) ∧
      (∀ m, (listMounts w verbose).err = some m →
        (Exec w verbose []).err = some (lit "Could not list mounts: " ++ m)) ∧
      (∀ e ∈ (Exec w verbose []).trace, e.isListing = true ∨ ∃ m, e = Event.log m)) ∧
    (∀ mountPath,
      (Exec w verbose [mountPath]).trace = (mountSelected w verbose mountPath).trace ∧
      ((Exec w verbose [mountPath]).err = none ↔
        (mountSelected w verbose mountPath).err = none) ∧
      (∀ m, (mountSelected w verbose mountPath).err = some m →
        (Exec w verbose [mountPath]).err = some (lit "Could not mount database: " ++ m))) ∧
    (∀ mountPath config, w.getSelectedDatabaseConfig = .ok (some config) →
      mountSelected w verbose mountPath =
        ⟨Event.getSelectedDatabaseConfig ::
            (mountExplicit w verbose config.DatabasePath mountPath).trace,
          (mountExplicit w verbose config.DatabasePath mountPath).err⟩) ∧
    (∀ mountPath config, w.getSelectedDatabaseConfig = .ok none →
      w.getDefaultDatabaseConfig = .ok (some config) →
      mountSelected w verbose mountPath =
        ⟨Event.getSelectedDatabaseConfig :: Event.getDefaultDatabaseConfig ::
            (mountExplicit w verbose config.DatabasePath mountPath).trace,
          (mountExplicit w verbose config.DatabasePath mountPath).err⟩) ∧
    (∀ databasePath mountPath,
      (Exec w verbose [databasePath, mountPath]).trace
        = (mountExplicit w verbose databasePath mountPath).trace ∧
      ((Exec w verbose [databasePath, mountPath]).err = none ↔
        (mountExplicit w verbose databasePath mountPath).err = none) ∧
      (∀ m, (mountExplicit w verbose databasePath mountPath).err = some m →
        (Exec w verbose [databasePath, mountPath]).err
          = some (lit "Could not mount database: " ++ m))) ∧
    (∀ args : List GoString, 3 ≤ args.length →
      Exec w verbose args = ⟨[], some (lit "Too many arguments.")⟩) ∧
    (∀ err, w.getMountTable = .error err →
      Exec w verbose [] =
        ⟨(if verbose then [Event.log (lit "retrieving mount table.")] else [])
            ++ [Event.getMountTable],
          some (lit "Could not list mounts: " ++ err)⟩) ∧
    (∀ mt, w.getMountTable = .ok mt →
      Exec w verbose [] =
        ⟨(if verbose then [Event.log (lit "retrieving mount table.")] else [])
            ++ [Event.getMountTable]
            ++ (if verbose && mt.length == 0
                then [Event.log (lit "mount table is empty.")] else [])
            ++ mt.map (fun mount => Event.print
                (lit "'" ++ mount.DatabasePath ++ lit "' at '" ++ mount.MountPath
                  ++ lit "'\n")),
          none⟩) ∧
    (∀ mountPath err, w.getSelectedDatabaseConfig = .error err →
      Exec w verbose [mountPath] =
        ⟨[Event.getSelectedDatabaseConfig],
          some (lit "Could not mount database: " ++ err)⟩) ∧
    (∀ mountPath err, w.getSelectedDatabaseConfig = .ok none →
      w.getDefaultDatabaseConfig = .error err →
      Exec w verbose [mountPath] =
        ⟨[Event.getSelectedDatabaseConfig, Event.getDefaultDatabaseConfig],
          some (lit "Could not mount database: " ++ err)⟩) ∧
    (∀ mountPath, w.getSelectedDatabaseConfig = .ok none →
      w.getDefaultDatabaseConfig = .ok none →
      Exec w verbose [mountPath] =
        ⟨[Event.getSelectedDatabaseConfig, Event.getDefaultDatabaseConfig],
          some (lit "Could not mount database: "
            ++ lit "Could not get default database configuration.")⟩) := by
  refine ⟨?_, fun mountPath => ?_, fun mountPath config h => ?_,
    fun mountPath config h1 h2 => ?_, fun databasePath mountPath => ?_, fun args h => ?_,
    fun err h => ?_, fun mt h => ?_, fun mountPath err h => ?_,
    fun mountPath err h1 h2 => ?_, fun mountPath h1 h2 => ?_⟩
  rotate_left 6
  · cases verbose <;> simp [Exec, listMounts, h]
  · cases verbose <;> simp [Exec, listMounts, h]
  · simp [Exec, mountSelected, h]
  · simp [Exec, mountSelected, h1, h2]
  · simp [Exec, mountSelected, h1, h2]
  · have hl := listMounts_only_lists w verbose
    cases h : (listMounts w verbose).err <;> simp [Exec, h] <;> exact hl
  · cases h : (mountSelected w verbose mountPath).err <;> simp [Exec, h]
  · cases h' : (mountExplicit w verbose config.DatabasePath mountPath).err <;>
      simp [mountSelected, h, h']
  · cases h' : (mountExplicit w verbose config.DatabasePath mountPath).err <;>
      simp [mountSelected, h1, h2, h']
  · cases h : (mountExplicit w verbose databasePath mountPath).err <;> simp [Exec, h]
  · match args, h with
    | _ :: _ :: _ :: _, _ => rfl

/-- C6 at three arguments, at two arguments with a bad mount point, at one argument, and
at no argument with a mount table of one entry and with a mount table that fails. -/
theorem C6_Exec_dispatch_witness :
    Exec healthyWorld true [lit "/db", lit "/mnt", lit "/extra"]
      = ⟨[], some (lit "Too many arguments.")⟩ ∧
    (Exec healthyWorld false [lit "/db", lit "/file"]).err
      = some (lit "Could not mount database: Mount point '/file' is not a directory.") ∧
    (Exec healthyWorld false [lit "/mnt"]).err = none ∧
    Exec healthyWorld false []
      = ⟨[Event.getMountTable, Event.print (lit "'/db' at '/mnt'\n")], none⟩ ∧
    Exec unreadableTableWorld true []
      = ⟨[Event.log (lit "retrieving mount table."), Event.getMountTable],
          some (lit "Could not list mounts: permission denied")⟩ ∧
    Exec unreadableTableWorld false [lit "/mnt"]
      = ⟨[Event.getSelectedDatabaseConfig, Event.getDefaultDatabaseConfig],
          some (lit "Could not mount database: Could not get default database configuration.")⟩ :=
  ⟨(C6_Exec_dispatch healthyWorld true).2.2.2.2.2.1 _ (by decide),
   (C6_Exec_dispatch healthyWorld false).2.2.2.2.1 (lit "/db") (lit "/file") |>.2.2 _ rfl,
   by decide,
   (C6_Exec_dispatch healthyWorld false).2.2.2.2.2.2.2.1 _ rfl,
   (C6_Exec_dispatch unreadableTableWorld true).2.2.2.2.2.2.1 _ rfl,
   (C6_Exec_dispatch unreadableTableWorld false).2.2.2.2.2.2.2.2.2.2 (lit "/mnt") rfl rfl⟩

end TMSU
